import Mathlib

/-!
Verification development for the AI Background Perceptual Load Task
(`ai_background_load_task_v4.py`), a single-file psychology experiment
runner.  The script's pure core — condition generation, letter-string
synthesis, response scoring, record construction, the session loop's
cancellation behaviour, background selection and the end-of-program
save sequence — is shallowly embedded below.  Randomness
(`random.choice`, `random.sample`, `random.shuffle`,
`random.uniform`) is modelled by an oracle stream `rng : Nat → Nat`:
each draw reads one value of the stream, and selection/shuffling pick
indices modulo the size of the remaining pool, so every execution of
the Python program corresponds to some oracle.
-/

namespace LoadTask

/-- `target_letter = "X"` (source line 128). -/
def target_letter : Char := 'X'

/-- The 26-letter alphabet the comprehension at source line 129 ranges over. -/
def alphabet : List Char := "ABCDEFGHIJKLMNOPQRSTUVWXYZ".toList

/-- `non_target_letters = [l for l in "ABC…Z" if l != target_letter]`
(source line 129). -/
def non_target_letters : List Char := alphabet.filter (fun l => l ≠ target_letter)

/-- Model of `random.choice(l)` for nonempty `l`: the oracle value `r`
selects an index into `l` (reduced mod the length, so the model is total);
`d` is a default returned on the empty list, on which the Python original
would instead raise. -/
def choiceD {α : Type} (l : List α) (d : α) (r : Nat) : α :=
  if h : l.length = 0 then d
  else l.get ⟨r % l.length, Nat.mod_lt _ (Nat.pos_of_ne_zero h)⟩

/-- Model of `random.sample(pool, k)`: selection sampling.  Each step the
oracle picks one index into the remaining pool; the picked element is
removed before the next step, which is what makes the sample's elements
pairwise distinct, exactly as in Python's `random.sample`. -/
def sample {α : Type} : List α → Nat → (Nat → Nat) → List α
  | _, 0, _ => []
  | pool, k + 1, rng =>
    if h : pool.length = 0 then []
    else
      let j := rng 0 % pool.length
      pool.get ⟨j, Nat.mod_lt _ (Nat.pos_of_ne_zero h)⟩ ::
        sample (pool.eraseIdx j) k (fun n => rng (n + 1))

/-- Model of `random.shuffle(l)`: drawing a permutation of `l` by
repeatedly extracting an oracle-chosen element, i.e. sampling
`l.length` elements from `l` without replacement. -/
def shuffleL {α : Type} (l : List α) (rng : Nat → Nat) : List α :=
  sample l l.length rng

/-- `make_letter_string(load_type, target_present)` (source lines 164-189).
Low load: the target repeated 6 times if present, else one random
non-target letter repeated 6 times.  High load: the target plus 5
distinct random non-target letters if present, else 6 distinct random
non-target letters; then shuffled.  The oracle stream is split by
offset: the sample reads positions `0..5`, the shuffle positions `6..`. -/
def make_letter_string (load_type : String) (target_present : Bool)
    (rng : Nat → Nat) : String :=
  if load_type = "low" then
    if target_present then
      String.mk (List.replicate 6 target_letter)
    else
      String.mk (List.replicate 6 (choiceD non_target_letters 'A' (rng 0)))
  else
    let letters :=
      if target_present then
        target_letter :: sample non_target_letters 5 rng
      else
        sample non_target_letters 6 rng
    String.mk (shuffleL letters (fun n => rng (n + 6)))

/-- `loads = ["low", "high"]` (source line 125). -/
def loads : List String := ["low", "high"]

/-- `backgroundTypes = ["ai", "internet", "paper", "solid"]` (source line 95). -/
def backgroundTypes : List String := ["ai", "internet", "paper", "solid"]

/-- One trial condition: the dict appended at source lines 144-148. -/
structure Trial where
  load : String
  background_type : String
  target_present : Bool
deriving DecidableEq, Repr

/-- `cell_trials = [True, True, True, False, False]` shuffled in place
(source lines 141-142). -/
def cell_trials (r : Nat → Nat) : List Bool :=
  shuffleL [true, true, true, false, false] r

/-- The trial-generation loops (source lines 134-151): for each load and
each background type, shuffle the 3-present / 2-absent cell and append
its five trials; finally shuffle the whole list.  `cellRng load bg` is
the oracle slice consumed by that cell's shuffle and `orderRng` the one
consumed by the final order shuffle. -/
def gen_trials (cellRng : String → String → Nat → Nat)
    (orderRng : Nat → Nat) : List Trial :=
  shuffleL
    (loads.flatMap fun load =>
      backgroundTypes.flatMap fun bg =>
        (cell_trials (cellRng load bg)).map fun present =>
          Trial.mk load bg present)
    orderRng

/-- Does trial `t` belong to the (load, background_type) cell? -/
def inCell (load bg : String) (t : Trial) : Bool :=
  t.load == load && t.background_type == bg

/-- Does `t` belong to the cell with the given target-presence flag? -/
def inCellPresent (load bg : String) (tp : Bool) (t : Trial) : Bool :=
  inCell load bg t && t.target_present == tp

/-- The correctness determination (source lines 300-309): with no
response, incorrect; otherwise `z` is correct iff the target was
present and `m` iff it was absent. -/
def correctness (target_present : Bool) (response_key : Option String) : Nat :=
  match response_key with
  | none => 0
  | some k =>
    if target_present && (k == "z") then 1
    else if (!target_present) && (k == "m") then 1
    else 0

/-- The 0.2 s letter window (`trial_clock.getTime() < 0.2`, source line
274), as the rational 1/5 in a normal form on which kernel evaluation
works; `letters_dur_eq` below checks the value. -/
def letters_dur : ℚ := mkRat 1 5

/-- `max_dur = 1.5` (source line 286), as the rational 3/2. -/
def max_dur : ℚ := mkRat 3 2

/-- One polling step (source lines 280-282 and 291-293): `event.getKeys`
returned the batch `evs`; its first key is recorded iff no response has
been recorded yet (`if keys and response_key is None`). -/
def pollStep (resp : Option (String × ℚ)) (evs : List (String × ℚ)) :
    Option (String × ℚ) :=
  match resp, evs with
  | none, e :: _ => some e
  | _, _ => resp

/-- Part 1 of the response window (source lines 274-282): while the
trial clock reads less than 0.2 s, draw the frame and poll; the loop
keeps running after a response is recorded, later keys being ignored by
the `response_key is None` guard.  A poll stream entry is the clock
reading at that frame together with the timestamped keys fetched there.
Returns the response so far and the unconsumed rest of the stream. -/
def part1 : List (ℚ × List (String × ℚ)) → Option (String × ℚ) →
    Option (String × ℚ) × List (ℚ × List (String × ℚ))
  | [], resp => (resp, [])
  | (t, evs) :: rest, resp =>
    if t < letters_dur then part1 rest (pollStep resp evs)
    else (resp, (t, evs) :: rest)

/-- Part 2 (source lines 286-293): keep drawing and polling until 1.5 s
from letter onset or until a response is recorded. -/
def part2 : List (ℚ × List (String × ℚ)) → Option (String × ℚ) →
    Option (String × ℚ)
  | [], resp => resp
  | (t, evs) :: rest, resp =>
    if t < max_dur ∧ resp = none then part2 rest (pollStep resp evs)
    else resp

/-- The response one trial's polling loops produce from its poll
stream. -/
def runTrial (polls : List (ℚ × List (String × ℚ))) : Option (String × ℚ) :=
  let p := part1 polls none
  part2 p.2 p.1

/-- The external input one iteration of the main trial loop consumes:
the keys pressed before `event.clearEvents()` (source line 267) — these
are discarded and never reach the polling loops —, the per-frame poll
stream, and the oracle stream driving this trial's letter string. -/
structure TrialInput where
  fixationKeys : List String
  polls : List (ℚ × List (String × ℚ))
  rng : Nat → Nat

/-- One entry of `results` (the dict appended at source lines 312-323).
`response_key` and `rt` hold the empty string when no response was
recorded, exactly as in the append. -/
structure TrialRecord where
  participant : String
  session : String
  trial_index : Nat
  load : String
  background_type : String
  target_present : Nat
  letters : String
  response_key : String
  rt : String
  correct : Nat
deriving DecidableEq, Repr

/-- Textual rendering of a rational reaction time (Python stores the
float; only whether this field is empty matters to the spec). -/
def ratToString (q : ℚ) : String := toString q.num ++ "/" ++ toString q.den

/-- The record appended for a completed trial (source lines 299-323):
correctness from the recorded response, empty strings for an absent
response key or reaction time. -/
def recordOfTrial (participant session : String) (i : Nat) (t : Trial)
    (inp : TrialInput) : TrialRecord :=
  let letters := make_letter_string t.load t.target_present inp.rng
  let resp := runTrial inp.polls
  { participant := participant
    session := session
    trial_index := i
    load := t.load
    background_type := t.background_type
    target_present := if t.target_present then 1 else 0
    letters := letters
    response_key := match resp with | some kt => kt.1 | none => ""
    rt := match resp with | some kt => ratToString kt.2 | none => ""
    correct := correctness t.target_present (resp.map Prod.fst) }

/-- The escape check `response_key == "escape"` (source line 296);
Python's `None == "escape"` is false. -/
def isEscapeResp (resp : Option (String × ℚ)) : Bool :=
  match resp with
  | some kt => kt.1 == "escape"
  | none => false

/-- The main trial loop (source lines 232-323): one `Trial` and one
`TrialInput` per iteration, one `TrialRecord` appended per completed
trial, and a `break` — with no record — at the first escape response.
The background-selection statements (lines 250-256) touch only display
state and no record field; they are modelled by `runDisplay` below.
`i` is the 1-based `enumerate` counter. -/
def runTrials (participant session : String) :
    List Trial → List TrialInput → Nat → List TrialRecord
  | [], _, _ => []
  | _ :: _, [], _ => []
  | t :: ts, inp :: inps, i =>
    if isEscapeResp (runTrial inp.polls) then []
    else recordOfTrial participant session i t inp ::
      runTrials participant session ts inps (i + 1)

/-- Does the trial driven by this input end in a cancellation, i.e. is
the first response its polling loops record the escape key? -/
def escapes (inp : TrialInput) : Bool :=
  isEscapeResp (runTrial inp.polls)

/-- `get_background_image(bg_type)` (source lines 192-197): look the
type up in the pool mapping — empty list when absent, as in
`bgImages.get(bg_type, [])` —, return `None` on an empty pool and a
randomly chosen member otherwise. -/
def get_background_image (bgImages : List (String × List String))
    (bg_type : String) (r : Nat) : Option String :=
  let files := (bgImages.lookup bg_type).getD []
  if files.isEmpty then none
  else some (choiceD files "" r)

/-- The display state the trial loop mutates: the window clear colour
(`win.color`, created as `[0, 0, 0]` at source lines 37-42) and the
background stimulus' current image (`bg_image.image`). -/
structure Display where
  winColor : List Int
  bgImagePath : Option String
deriving DecidableEq, Repr

/-- The window as created at source lines 37-42. -/
def initialDisplay : Display := Display.mk [0, 0, 0] none

/-- The background choice of one trial (source lines 250-256): set
`bg_image.image` to the chosen path, or — on an empty pool — clear the
image and assign `win.color = [0, 0, 0]`.  Returns the updated display
and the trial's `img_path`. -/
def setBackground (bgImages : List (String × List String))
    (bg_type : String) (r : Nat) (d : Display) : Display × Option String :=
  match get_background_image bgImages bg_type r with
  | some p => (Display.mk d.winColor (some p), some p)
  | none => (Display.mk [0, 0, 0] none, none)

/-- What one trial shows behind the letters: the background image is
drawn iff the trial's `img_path` is not `None` (source lines 275-276),
otherwise only the window's clear colour is visible. -/
inductive Backdrop
  | image : String → Backdrop
  | fill : List Int → Backdrop
deriving DecidableEq, Repr

/-- The backdrop rendered from a display state and the trial's
`img_path`. -/
def backdropOf (d : Display) (img_path : Option String) : Backdrop :=
  match img_path with
  | some p => Backdrop.image p
  | none => Backdrop.fill d.winColor

/-- Display evolution across a session: each trial selects its
background (consuming one oracle value `r`) and renders its backdrop,
and the mutated display state is threaded to the next trial. -/
def runDisplay (bgImages : List (String × List String)) :
    Display → List (String × Nat) → List Backdrop
  | _, [] => []
  | d, (bg_type, r) :: rest =>
    let s := setBackground bgImages bg_type r d
    backdropOf s.1 s.2 :: runDisplay bgImages s.1 rest

/-- The statements after the main trial loop, in source order (lines
329-353): thanks screen (draw, flip, wait 3 s), `win.close()`,
`core.quit()`, and the CSV-save block. -/
inductive EndStmt
  | thanksScreen
  | winClose
  | coreQuit
  | saveCSV
deriving DecidableEq, Repr

/-- The post-loop statement sequence of the source file. -/
def end_of_program : List EndStmt :=
  [EndStmt.thanksScreen, EndStmt.winClose, EndStmt.coreQuit, EndStmt.saveCSV]

/-- `fieldnames` (source lines 341-345). -/
def fieldnames : List String :=
  ["participant", "session", "trial_index",
   "load", "background_type", "target_present",
   "letters", "response_key", "rt", "correct"]

/-- The row `csv.DictWriter.writerow` emits for one record: each field
value rendered as text, numbers via `str`. -/
def rowOf (r : TrialRecord) : List String :=
  [r.participant, r.session, toString r.trial_index, r.load,
   r.background_type, toString r.target_present, r.letters,
   r.response_key, r.rt, toString r.correct]

/-- The file content the save block (source lines 347-351) would
produce: the header row, then one row per accumulated record. -/
def csvContent (results : List TrialRecord) : List (List String) :=
  fieldnames :: results.map rowOf

/-- Run the post-loop statements.  `out` is the output file's content,
`none` while the file has not been created.  `core.quit()` calls
`sys.exit`, terminating the process, so every statement after it is
dropped; `saveCSV` writes `csvContent`. -/
def execEnd (results : List TrialRecord) :
    List EndStmt → Option (List (List String)) → Option (List (List String))
  | [], out => out
  | EndStmt.coreQuit :: _, out => out
  | EndStmt.saveCSV :: rest, _ => execEnd results rest (some (csvContent results))
  | EndStmt.thanksScreen :: rest, out => execEnd results rest out
  | EndStmt.winClose :: rest, out => execEnd results rest out

/-- The output file's content once the program has ended, for a session
that accumulated `results`. -/
def savedOutput (results : List TrialRecord) : Option (List (List String)) :=
  execEnd results end_of_program none

/-- The letter window constant is the source's 0.2 s. -/
theorem letters_dur_eq : letters_dur = 1/5 := by
  norm_num [letters_dur, mkRat, Rat.normalize]

/-- The response deadline constant is the source's 1.5 s. -/
theorem max_dur_eq : max_dur = 3/2 := by
  norm_num [max_dur, mkRat, Rat.normalize]

/-- Extracting the chosen element in front of the rest of the pool is a
permutation of the pool. -/
theorem get_cons_eraseIdx_perm {α : Type} :
    ∀ (l : List α) (j : Nat) (h : j < l.length),
      List.Perm (l.get ⟨j, h⟩ :: l.eraseIdx j) l
  | _ :: _, 0, _ => by simp
  | a :: t, j + 1, h => by
    simpa using
      List.Perm.trans (List.Perm.swap a (t.get ⟨j, by simpa using h⟩) _)
        ((get_cons_eraseIdx_perm t j (by simpa using h)).cons a)

/-- Every sampled element comes from the pool. -/
theorem sample_subset {α : Type} :
    ∀ (k : Nat) (pool : List α) (rng : Nat → Nat) (x : α),
      x ∈ sample pool k rng → x ∈ pool
  | 0, pool, rng, x => by simp [sample]
  | k + 1, pool, rng, x => by
    simp only [sample]
    split
    · simp
    · intro hx
      rcases List.mem_cons.mp hx with h | h
      · exact h ▸ List.get_mem _ _ _
      · exact (List.eraseIdx_sublist pool _).mem
          (sample_subset k _ _ x h)

/-- The sample has `min k pool.length` elements. -/
theorem sample_length {α : Type} :
    ∀ (k : Nat) (pool : List α) (rng : Nat → Nat),
      (sample pool k rng).length = min k pool.length
  | 0, pool, rng => by simp [sample]
  | k + 1, pool, rng => by
    simp only [sample]
    split
    · simp; omega
    · next h =>
      have hj : rng 0 % pool.length < pool.length :=
        Nat.mod_lt _ (Nat.pos_of_ne_zero h)
      have he := List.length_eraseIdx_add_one hj
      simp only [List.length_cons, sample_length k]
      omega

/-- Sampling from a duplicate-free pool yields a duplicate-free list. -/
theorem sample_nodup {α : Type} :
    ∀ (k : Nat) (pool : List α) (rng : Nat → Nat),
      pool.Nodup → (sample pool k rng).Nodup
  | 0, pool, rng, _ => by simp [sample]
  | k + 1, pool, rng, hnd => by
    simp only [sample]
    split
    · simp
    · next h =>
      have hj : rng 0 % pool.length < pool.length :=
        Nat.mod_lt _ (Nat.pos_of_ne_zero h)
      have hperm := get_cons_eraseIdx_perm pool _ hj
      have hcons : (pool.get ⟨_, hj⟩ :: pool.eraseIdx _).Nodup :=
        hperm.nodup_iff.mpr hnd
      refine List.nodup_cons.mpr ⟨fun hmem => ?_, ?_⟩
      · exact (List.nodup_cons.mp hcons).1 (sample_subset k _ _ _ hmem)
      · exact sample_nodup k _ _ (List.nodup_cons.mp hcons).2

/-- Sampling as many elements as the pool holds is a permutation of it. -/
theorem sample_all_perm {α : Type} :
    ∀ (n : Nat) (l : List α) (rng : Nat → Nat), l.length = n →
      List.Perm (sample l n rng) l
  | 0, l, rng, h => by
    rw [List.length_eq_zero.mp h]; simp [sample]
  | n + 1, l, rng, h => by
    simp only [sample]
    split
    · omega
    · next h0 =>
      have hj : rng 0 % l.length < l.length := Nat.mod_lt _ (Nat.pos_of_ne_zero h0)
      have he : (l.eraseIdx (rng 0 % l.length)).length = n := by
        have := List.length_eraseIdx_add_one hj; omega
      exact ((sample_all_perm n _ (fun n => rng (n + 1)) he).cons _).trans
        (get_cons_eraseIdx_perm l _ hj)

/-- The modelled `random.shuffle` produces a permutation of its input. -/
theorem shuffleL_perm {α : Type} (l : List α) (rng : Nat → Nat) :
    List.Perm (shuffleL l rng) l :=
  sample_all_perm l.length l rng rfl

theorem non_target_letters_nodup : non_target_letters.Nodup := by decide

theorem target_not_mem_non_target : target_letter ∉ non_target_letters := by decide

theorem non_target_letters_length : non_target_letters.length = 25 := by decide

/-- The target letter never occurs among sampled non-target letters. -/
theorem count_target_sample_zero (k : Nat) (rng : Nat → Nat) :
    (sample non_target_letters k rng).count target_letter = 0 :=
  List.count_eq_zero.mpr fun hmem =>
    target_not_mem_non_target (sample_subset k _ _ _ hmem)

/-- A choice from a nonempty pool is a member of the pool. -/
theorem choiceD_mem {α : Type} (l : List α) (d : α) (r : Nat)
    (h : l.length ≠ 0) : choiceD l d r ∈ l := by
  simp only [choiceD, dif_neg h]
  exact List.get_mem _ _ _

/-- Claim C7: for every load level and every target-presence value, the
letter string returned by `make_letter_string` has length exactly 6
(this holds for every `load_type` string: anything other than `"low"`
takes the high-load branch). -/
theorem claim_C7_letter_string_length (load_type : String) (tp : Bool)
    (rng : Nat → Nat) : (make_letter_string load_type tp rng).length = 6 := by
  unfold make_letter_string
  split
  · cases tp <;> simp [String.length]
  · have hlen : ∀ (l : List Char) (r : Nat → Nat),
        (String.mk (shuffleL l r)).length = l.length := by
      intro l r
      show (shuffleL l r).length = l.length
      exact (shuffleL_perm l r).length_eq
    cases tp <;>
      simp [hlen, sample_length, non_target_letters_length]

/-- The character list of a high-load string has six entries. -/
theorem claim_C7_aux (tp : Bool) (rng : Nat → Nat) :
    (make_letter_string "high" tp rng).toList.length = 6 := by
  unfold make_letter_string
  rw [if_neg (by decide : ¬("high" = "low"))]
  cases tp
  · show (shuffleL (sample non_target_letters 6 rng)
        fun n => rng (n + 6)).length = 6
    rw [(shuffleL_perm _ _).length_eq, sample_length,
      non_target_letters_length]
    decide
  · show (shuffleL (target_letter :: sample non_target_letters 5 rng)
        fun n => rng (n + 6)).length = 6
    rw [(shuffleL_perm _ _).length_eq, List.length_cons, sample_length,
      non_target_letters_length]
    decide

/-- Claim C6: every high-load letter string consists of 6
pairwise-distinct characters, for both target-presence values. -/
theorem claim_C6_high_load_distinct (tp : Bool) (rng : Nat → Nat) :
    (make_letter_string "high" tp rng).toList.Nodup ∧
    (make_letter_string "high" tp rng).toList.length = 6 := by
  refine ⟨?_, claim_C7_aux tp rng⟩
  unfold make_letter_string
  rw [if_neg (by decide : ¬("high" = "low"))]
  have hletters : (if tp then
      target_letter :: sample non_target_letters 5 rng
    else sample non_target_letters 6 rng).Nodup := by
    cases tp
    · exact sample_nodup 6 _ _ non_target_letters_nodup
    · simp only [if_pos]
      refine List.nodup_cons.mpr ⟨fun hmem => ?_, ?_⟩
      · exact target_not_mem_non_target (sample_subset 5 _ _ _ hmem)
      · exact sample_nodup 5 _ _ non_target_letters_nodup
  show (shuffleL _ _).Nodup
  exact ((shuffleL_perm _ _).nodup_iff).mpr hletters

/-- Counterexample to claim C2 as stated: under low load with the target
present, the generated string is the target letter repeated six times,
so it contains 6 occurrences of the target character, not exactly 1. -/
theorem claim_C2_counterexample :
    (make_letter_string "low" true (fun _ => 0)).toList.count target_letter = 6 ∧
    ¬ (make_letter_string "low" true (fun _ => 0)).toList.count target_letter = 1 := by
  constructor <;> decide

/-- Claim C2 as amended: the high-load string contains exactly 1
occurrence of the target character when the target is present and 0 when
absent; the low-load string contains 0 occurrences when the target is
absent, but 6 (the target repeated) when it is present. -/
theorem claim_C2_target_count (tp : Bool) (rng : Nat → Nat) :
    (make_letter_string "high" tp rng).toList.count target_letter
      = (if tp then 1 else 0) ∧
    (make_letter_string "low" false rng).toList.count target_letter = 0 ∧
    (make_letter_string "low" true rng).toList.count target_letter = 6 := by
  refine ⟨?_, ?_, ?_⟩
  · unfold make_letter_string
    rw [if_neg (by decide : ¬("high" = "low"))]
    cases tp
    · show (shuffleL (sample non_target_letters 6 rng)
          fun n => rng (n + 6)).count target_letter = 0
      rw [(shuffleL_perm _ _).count_eq]
      exact count_target_sample_zero 6 rng
    · show (shuffleL (target_letter :: sample non_target_letters 5 rng)
          fun n => rng (n + 6)).count target_letter = 1
      rw [(shuffleL_perm _ _).count_eq, List.count_cons_self,
        count_target_sample_zero 5 rng]
  · unfold make_letter_string
    rw [if_pos rfl, if_neg (by decide : ¬(false = true))]
    have hmem := choiceD_mem non_target_letters 'A' (rng 0)
      (by rw [non_target_letters_length]; omega)
    have hne : ¬(choiceD non_target_letters 'A' (rng 0) = target_letter) := by
      intro he
      exact target_not_mem_non_target (he ▸ hmem)
    show (List.replicate 6 _).count target_letter = 0
    rw [List.count_replicate]
    simp [hne]
  · unfold make_letter_string
    rw [if_pos rfl, if_pos rfl]
    show (List.replicate 6 target_letter).count target_letter = 6
    rw [List.count_replicate]
    simp

/-- Claim C1 (code bug in the source): the CSV save block is
unreachable — `core.quit()` terminates the process before it — so when
the session ends, no output file content is ever produced: in
particular the accumulated records are never written as a header row
plus one row per record. -/
theorem claim_C1_save_block_unreachable (results : List TrialRecord) :
    savedOutput results = none ∧
    ¬ savedOutput results = some (csvContent results) := by
  refine ⟨rfl, ?_⟩
  intro h
  simp [savedOutput, end_of_program, execEnd] at h

/-- Claim C5: the scoring marks `z` correct exactly when the target was
present, `m` correct exactly when it was absent, and a missing response
always incorrect. -/
theorem claim_C5_scoring :
    correctness true (some "z") = 1 ∧ correctness true (some "m") = 0 ∧
    correctness false (some "m") = 1 ∧ correctness false (some "z") = 0 ∧
    ∀ tp : Bool, correctness tp none = 0 :=
  ⟨rfl, rfl, rfl, rfl, fun _ => rfl⟩

/-- Claim C8: a trial whose polling loops record no response before the
1.5 s deadline still appends a record — marked incorrect, with empty
`response_key` and `rt` fields — and the session continues with the
next trial. -/
theorem claim_C8_no_response_recorded (participant session : String)
    (t : Trial) (ts : List Trial) (inp : TrialInput)
    (inps : List TrialInput) (i : Nat) (h : runTrial inp.polls = none) :
    runTrials participant session (t :: ts) (inp :: inps) i
      = recordOfTrial participant session i t inp ::
        runTrials participant session ts inps (i + 1) ∧
    (recordOfTrial participant session i t inp).response_key = "" ∧
    (recordOfTrial participant session i t inp).rt = "" ∧
    (recordOfTrial participant session i t inp).correct = 0 := by
  refine ⟨?_, ?_, ?_, ?_⟩
  · simp [runTrials, isEscapeResp, h]
  · simp [recordOfTrial, h]
  · simp [recordOfTrial, h]
  · simp [recordOfTrial, h]
    rfl

theorem claim_C8_witness :
    runTrial (TrialInput.mk [] [] (fun _ => 0)).polls = none ∧
    (runTrials "P01" "1" [Trial.mk "low" "ai" true]
        [TrialInput.mk [] [] (fun _ => 0)] 1
      = recordOfTrial "P01" "1" 1 (Trial.mk "low" "ai" true)
          (TrialInput.mk [] [] (fun _ => 0)) ::
        runTrials "P01" "1" [] [] 2 ∧
    (recordOfTrial "P01" "1" 1 (Trial.mk "low" "ai" true)
        (TrialInput.mk [] [] (fun _ => 0))).response_key = "" ∧
    (recordOfTrial "P01" "1" 1 (Trial.mk "low" "ai" true)
        (TrialInput.mk [] [] (fun _ => 0))).rt = "" ∧
    (recordOfTrial "P01" "1" 1 (Trial.mk "low" "ai" true)
        (TrialInput.mk [] [] (fun _ => 0))).correct = 0) :=
  ⟨rfl, claim_C8_no_response_recorded "P01" "1" (Trial.mk "low" "ai" true) []
    (TrialInput.mk [] [] (fun _ => 0)) [] 1 rfl⟩

/-- Display state with the window's creation colour is preserved: every
trial's backdrop is a function of that trial's own background selection
alone. -/
theorem runDisplay_backdrops (bgImages : List (String × List String)) :
    ∀ (l : List (String × Nat)) (d : Display), d.winColor = [0, 0, 0] →
      runDisplay bgImages d l = l.map (fun br =>
        match get_background_image bgImages br.1 br.2 with
        | some p => Backdrop.image p
        | none => Backdrop.fill [0, 0, 0])
  | [], d, _ => rfl
  | (bg_type, r) :: rest, d, h => by
    rcases hgi : get_background_image bgImages bg_type r with _ | p
    · simp only [runDisplay, setBackground, hgi, backdropOf, List.map]
      exact congrArg _ (runDisplay_backdrops bgImages rest _ rfl)
    · simp only [runDisplay, setBackground, hgi, backdropOf, List.map]
      exact congrArg _ (runDisplay_backdrops bgImages rest _ h)

/-- Claim C9: starting from the window as created, a trial whose
category pool is empty renders no background image — only the neutral
fill `[0, 0, 0]` — and every trial's backdrop (including later trials
of non-empty categories) depends only on that trial's own selection,
so the fallback never affects another trial's display. -/
theorem claim_C9_fallback_scoped (bgImages : List (String × List String))
    (trialBgs : List (String × Nat)) :
    runDisplay bgImages initialDisplay trialBgs
      = trialBgs.map (fun br =>
          match get_background_image bgImages br.1 br.2 with
          | some p => Backdrop.image p
          | none => Backdrop.fill [0, 0, 0]) :=
  runDisplay_backdrops bgImages trialBgs initialDisplay rfl

/-- Claim C10: `get_background_image` returns `None` exactly when the
requested type's pool is empty — in particular when the type is absent
from the mapping — and otherwise returns a member of that pool. -/
theorem claim_C10_background_selection
    (bgImages : List (String × List String)) (bg_type : String) (r : Nat) :
    (get_background_image bgImages bg_type r = none ↔
      (bgImages.lookup bg_type).getD [] = []) ∧
    ∀ p, get_background_image bgImages bg_type r = some p →
      p ∈ (bgImages.lookup bg_type).getD [] := by
  unfold get_background_image
  rcases hl : (bgImages.lookup bg_type).getD [] with _ | ⟨a, files⟩
  · simp
  · refine ⟨by simp, ?_⟩
    intro p hp
    simp only [List.isEmpty_cons, if_neg Bool.false_ne_true,
      Option.some.injEq] at hp
    exact hp ▸ choiceD_mem _ _ _ (by simp)

theorem claim_C10_witness :
    "img.png" ∈ (([("ai", ["img.png"])].lookup "ai").getD []) :=
  (claim_C10_background_selection [("ai", ["img.png"])] "ai" 0).2
    "img.png" rfl

/-- Counterexample to claim C3 as stated: a two-trial session in which
the cancel key arrives during trial 1 — one frame after a `z` response
was already recorded there — yet trial 1 still produces a record (with
response `z`) and trial 2 still runs (timing out with no response), so
the session does not abort. -/
theorem claim_C3_counterexample :
    (runTrials "P01" "1"
        [Trial.mk "low" "ai" true, Trial.mk "low" "ai" false]
        [TrialInput.mk []
            [(mkRat 1 10, [("z", mkRat 1 20)]),
             (mkRat 3 20, [("escape", mkRat 3 25)])]
            (fun _ => 0),
         TrialInput.mk [] [] (fun _ => 0)] 1).map
      (fun rec => rec.response_key) = ["z", ""] := by
  decide

/-- Claim C3 as amended: whenever the cancel key is the first response
the polling loops of some trial record (no `z`/`m` was recorded earlier
in that trial — a later cancel key is ignored by the response guard,
and keys pressed during fixation are cleared before polling starts),
the session aborts at that trial: the interrupted trial produces no
record, no later trial runs, and exactly one record per previously
completed trial is retained. -/
theorem claim_C3_cancel_aborts (participant session : String)
    (t : Trial) (ts2 : List Trial) (inp : TrialInput)
    (ins2 : List TrialInput) (hesc : escapes inp = true) :
    ∀ (ts1 : List Trial) (ins1 : List TrialInput) (i : Nat),
      ts1.length = ins1.length →
      (∀ j ∈ ins1, escapes j = false) →
      runTrials participant session (ts1 ++ t :: ts2) (ins1 ++ inp :: ins2) i
        = runTrials participant session ts1 ins1 i ∧
      (runTrials participant session ts1 ins1 i).length = ts1.length
  | [], [], i, _, _ => by
    refine ⟨?_, rfl⟩
    simp only [List.nil_append, runTrials]
    rw [show isEscapeResp (runTrial inp.polls) = true from hesc]
    simp [runTrials]
  | [], _ :: _, _, hlen, _ => by simp at hlen
  | _ :: _, [], _, hlen, _ => by simp at hlen
  | a :: ts1', b :: ins1', i, hlen, hpre => by
    have hb : escapes b = false := hpre b (List.mem_cons_self b ins1')
    obtain ⟨heq, hlen2⟩ :=
      claim_C3_cancel_aborts participant session t ts2 inp ins2 hesc
        ts1' ins1' (i + 1) (by simpa using hlen)
        (fun j hj => hpre j (List.mem_cons_of_mem b hj))
    simp only [List.cons_append, runTrials]
    rw [show isEscapeResp (runTrial b.polls) = false from hb]
    simp only [Bool.false_eq_true, if_false, List.length_cons]
    exact ⟨congrArg _ heq, by rw [hlen2]⟩

theorem claim_C3_witness :
    escapes (TrialInput.mk [] [(mkRat 1 10, [("escape", mkRat 1 20)])] (fun _ => 0)) = true ∧
    (runTrials "P01" "1"
        ([Trial.mk "low" "ai" true] ++ Trial.mk "low" "ai" false :: [])
        ([TrialInput.mk [] [(mkRat 1 10, [("z", mkRat 1 20)])] (fun _ => 0)] ++
          TrialInput.mk [] [(mkRat 1 10, [("escape", mkRat 1 20)])] (fun _ => 0) :: []) 1
      = runTrials "P01" "1" [Trial.mk "low" "ai" true]
          [TrialInput.mk [] [(mkRat 1 10, [("z", mkRat 1 20)])] (fun _ => 0)] 1 ∧
    (runTrials "P01" "1" [Trial.mk "low" "ai" true]
        [TrialInput.mk [] [(mkRat 1 10, [("z", mkRat 1 20)])] (fun _ => 0)] 1).length = 1) :=
  ⟨by decide,
   claim_C3_cancel_aborts "P01" "1" (Trial.mk "low" "ai" false) []
     (TrialInput.mk [] [(mkRat 1 10, [("escape", mkRat 1 20)])] (fun _ => 0)) []
     (by decide)
     [Trial.mk "low" "ai" true]
     [TrialInput.mk [] [(mkRat 1 10, [("z", mkRat 1 20)])] (fun _ => 0)] 1 rfl
     (by
       intro j hj
       rw [List.mem_singleton] at hj
       subst hj
       decide)⟩

/-- A shuffled cell keeps five entries. -/
theorem cell_trials_length (r : Nat → Nat) : (cell_trials r).length = 5 :=
  (shuffleL_perm _ _).length_eq

/-- Counting over a shuffled cell equals counting over the fixed
3-present / 2-absent multiset. -/
theorem cell_trials_countP (q : Bool → Bool) (r : Nat → Nat) :
    (cell_trials r).countP q
      = ([true, true, true, false, false].countP q) :=
  List.Perm.countP_eq q (shuffleL_perm _ _)

/-- The final order shuffle preserves any count over the generated
trials. -/
theorem gen_trials_countP (cellRng : String → String → Nat → Nat)
    (orderRng : Nat → Nat) (p : Trial → Bool) :
    (gen_trials cellRng orderRng).countP p
      = (loads.flatMap fun load =>
          backgroundTypes.flatMap fun bg =>
            (cell_trials (cellRng load bg)).map fun present =>
              Trial.mk load bg present).countP p := by
  unfold gen_trials
  exact List.Perm.countP_eq p (shuffleL_perm _ _)

/-- Claim C4: every generated trial list has exactly 40 trials, and each
of the 8 (load, background_type) cells has exactly 5 of them — 3
target-present and 2 target-absent. -/
theorem claim_C4_design (cellRng : String → String → Nat → Nat)
    (orderRng : Nat → Nat) :
    (gen_trials cellRng orderRng).length = 40 ∧
    ∀ load ∈ loads, ∀ bg ∈ backgroundTypes,
      ((gen_trials cellRng orderRng).countP (inCell load bg) = 5 ∧
       (gen_trials cellRng orderRng).countP (inCellPresent load bg true) = 3 ∧
       (gen_trials cellRng orderRng).countP (inCellPresent load bg false) = 2) := by
  constructor
  · unfold gen_trials
    rw [(shuffleL_perm _ _).length_eq]
    simp [loads, backgroundTypes, cell_trials_length]
  · intro load hload bg hbg
    simp only [loads, List.mem_cons, List.not_mem_nil, or_false] at hload
    simp only [backgroundTypes, List.mem_cons, List.not_mem_nil, or_false] at hbg
    rcases hload with rfl | rfl <;> rcases hbg with rfl | rfl | rfl | rfl <;>
      refine ⟨?_, ?_, ?_⟩ <;>
      · rw [gen_trials_countP]
        simp only [loads, backgroundTypes, List.flatMap_cons,
          List.flatMap_nil, List.append_nil, List.countP_append,
          List.countP_map, cell_trials_countP]
        decide

theorem claim_C4_witness :
    ("low" ∈ loads ∧ "ai" ∈ backgroundTypes) ∧
    (gen_trials (fun _ _ _ => 0) (fun _ => 0)).length = 40 ∧
    ((gen_trials (fun _ _ _ => 0) (fun _ => 0)).countP (inCell "low" "ai") = 5 ∧
     (gen_trials (fun _ _ _ => 0) (fun _ => 0)).countP
       (inCellPresent "low" "ai" true) = 3 ∧
     (gen_trials (fun _ _ _ => 0) (fun _ => 0)).countP
       (inCellPresent "low" "ai" false) = 2) :=
  ⟨⟨by simp [loads], by simp [backgroundTypes]⟩,
   (claim_C4_design (fun _ _ _ => 0) (fun _ => 0)).1,
   (claim_C4_design (fun _ _ _ => 0) (fun _ => 0)).2 "low" (by simp [loads])
     "ai" (by simp [backgroundTypes])⟩

end LoadTask
